import Mathlib

/-!
Verification of the Oura ingestion pipeline (Controller.py, Ingestor.py, utils.py)
against its natural-language specification.

The Python sources are shallowly embedded below.  Conventions:
* Python strings are modelled as `String` (and, where character-level work is
  needed, as `List Char` via `String.toList`).
* A pandas `DataFrame` is modelled as an ordered association list of named
  columns over a small `Value` type, plus an explicit row count.
* Python exceptions are modelled by the `PyResult` monad-like type: `.exn e`
  means the Python code raised `e` past the modelled region.
* External collaborators (the AWS wrangler call, the ClickHouse client) are
  modelled as oracle parameters: `none`/`some msg` results stand for a normal
  return versus a raised backend exception.
-/

namespace Oura

/-- Cell values of a batch.  `ts tz` is a pandas timestamp whose only modelled
observable is its timezone offset in minutes (`none` = timezone-naive);
`nan` covers NaN/NaT/None missing values. -/
inductive Value where
  | str (s : String)
  | int (z : Int)
  | nan
  | ts (tz : Option Int)
deriving DecidableEq, Repr

/-- A pandas DataFrame: an explicit row count and an ordered list of named
columns.  (All columns of a well-formed frame have `nrows` entries.) -/
structure DataFrame where
  nrows : Nat
  cols : List (String × List Value)
deriving DecidableEq, Repr

def dfEmpty : DataFrame := ⟨0, []⟩

/-- Python exceptions that the embedded code can raise. -/
inductive PyErr where
  | attributeError
  | valueError
  | indexError
  | keyError
  | nameError
  | typeError
deriving DecidableEq, Repr

/-- Result of running a piece of Python code: a value or a raised exception. -/
inductive PyResult (α : Type) where
  | ok (a : α)
  | exn (e : PyErr)
deriving DecidableEq, Repr

/-- `df[c] = vs`: overwrite column `c` in place if present, else append it
(pandas keeps the position of an existing column and appends new ones). -/
def setCol (df : DataFrame) (c : String) (vs : List Value) : DataFrame :=
  if (List.lookup c df.cols).isSome then
    { df with cols := df.cols.map (fun p => if p.1 == c then (c, vs) else p) }
  else
    { df with cols := df.cols ++ [(c, vs)] }

/-- `df[c] = v` with a scalar `v`: broadcast to every row. -/
def setColScalar (df : DataFrame) (c : String) (v : Value) : DataFrame :=
  setCol df c (List.replicate df.nrows v)

/-- `df.rename(columns={old: new})`: keeps column order. -/
def renameCol (df : DataFrame) (old new : String) : DataFrame :=
  { df with cols := df.cols.map (fun p => if p.1 == old then (new, p.2) else p) }

/-- Column names of the frame, in order (`df.columns`). -/
def colNames (df : DataFrame) : List String := df.cols.map Prod.fst

/-! ## De-identification pass (`Ingestor.removeSensitive`, Ingestor.py 96-112) -/

/-- The fixed placeholder constants of `removeSensitive`. -/
def default_values : List (String × Value) :=
  [("email", .str "foo@bar.org"),
   ("group", .str "g1"),
   ("name", .str "john doe"),
   ("participant_id", .str "000-0000")]

/-- One loop iteration of `removeSensitive`: a column whose name is a key of
`default_values` is overwritten (every row) with the placeholder scalar. -/
def sensitiveOverwrite (n : Nat) (c : String) (vs : List Value) : List Value :=
  match List.lookup c default_values with
  | some v => List.replicate n v
  | none => vs

/-- `removeSensitive(df)`: for every column of the frame, if its name is in
`default_values`, assign the placeholder scalar to the whole column. -/
def removeSensitive (df : DataFrame) : DataFrame :=
  ⟨df.nrows, df.cols.map (fun p => (p.1, sensitiveOverwrite df.nrows p.1 p.2))⟩

lemma sensitiveOverwrite_idem (n : Nat) (c : String) (vs : List Value) :
    sensitiveOverwrite n c (sensitiveOverwrite n c vs) = sensitiveOverwrite n c vs := by
  unfold sensitiveOverwrite
  cases List.lookup c default_values <;> simp

lemma lookup_map_keyfix (g : String → List Value → List Value)
    (l : List (String × List Value)) (c : String) :
    List.lookup c (l.map (fun p => (p.1, g p.1 p.2))) = (List.lookup c l).map (g c) := by
  induction l with
  | nil => simp
  | cons a l ih =>
    by_cases h : c = a.1
    · simp [List.lookup, h]
    · have hb : (c == a.1) = false := beq_false_of_ne h
      simp [List.lookup, hb, ih]

/-- Claim C9: the de-identification pass is idempotent; every present
column named in `default_values` is overwritten in full with its placeholder
(and keeps its position, it is not dropped); columns absent from the batch
stay absent; the row count is unchanged.  The second conjunct states the
per-column behaviour without hypotheses via `Option.map`: looking up any
column name `c` after the pass yields the placeholder column when `c` is
sensitive and present, the original column when non-sensitive, and `none`
(absent) exactly when it was absent before. -/
theorem removeSensitive_spec (df : DataFrame) (c : String) :
    removeSensitive (removeSensitive df) = removeSensitive df ∧
    List.lookup c (removeSensitive df).cols
      = (List.lookup c df.cols).map (sensitiveOverwrite df.nrows c) ∧
    (removeSensitive df).nrows = df.nrows ∧
    colNames (removeSensitive df) = colNames df := by
  refine ⟨?_, ?_, rfl, ?_⟩
  · unfold removeSensitive
    simp only [List.map_map]
    congr 1
    apply List.map_congr_left
    intro p _
    simp [Function.comp, sensitiveOverwrite_idem]
  · exact lookup_map_keyfix (sensitiveOverwrite df.nrows) df.cols c
  · unfold removeSensitive colNames
    simp [List.map_map, Function.comp]

/-! ## Activity-table timezone extraction (`Ingestor._activity_modifier`, Ingestor.py 37-51)

The source iterates over the `day_start` column, parses each cell with
`datetime.fromisoformat`, renders `dt.tzname()` (for CPython fixed-offset
timezones this is `"UTC"` for a zero offset and `"UTC±HH:MM"` otherwise),
slices off the first 3 characters, splits on `':'` and computes
`int(buff[0])*60 + int(buff[1])`.  A `ValueError` anywhere in the `try`
block is caught and records `np.nan` for the row. -/

/-- Character for a decimal digit `n ≤ 9`. -/
def digitCh (n : Nat) : Char := Char.ofNat (48 + n)

/-- Numeric value of a digit character. -/
def digitVal (c : Char) : Nat := c.toNat - 48

/-- Zero-padded two-digit rendering (`"%02d"` for values below 100,
the only use sites here are hour/minute fields). -/
def pad2 (n : Nat) : List Char := [digitCh (n / 10), digitCh (n % 10)]

/-- Python `int(s)` restricted to an all-digit string: `some` of its value,
`none` when the string is empty or holds a non-digit (a `ValueError`). -/
def pyNatDigits (cs : List Char) : Option Nat :=
  if cs.isEmpty then none
  else if cs.all Char.isDigit then
    some (cs.foldl (fun acc c => acc * 10 + digitVal c) 0)
  else none

/-- Python `int(s)` on a possibly sign-headed string. -/
def pyInt (cs : List Char) : Option Int :=
  match cs with
  | [] => none
  | c :: rest =>
    if c == '-' then (pyNatDigits rest).map (fun n => -(n : Int))
    else if c == '+' then (pyNatDigits rest).map (fun n => (n : Int))
    else (pyNatDigits cs).map (fun n => (n : Int))

/-- Python `str.split(sep)` for a one-character separator: splits at every
occurrence and keeps empty pieces, so the result is never the empty list. -/
def pySplit (sep : Char) : List Char → List (List Char)
  | [] => [[]]
  | c :: rest =>
    if c == sep then [] :: pySplit sep rest
    else
      match pySplit sep rest with
      | g :: gs => (c :: g) :: gs
      | [] => [[c]]

/-- CPython `timezone._name_from_offset` for a fixed offset of `o` minutes
(the offsets producible by `fromisoformat` below have zero seconds):
`"UTC"` when the offset is zero, otherwise `"UTC±HH:MM"`. -/
def tznameChars (o : Int) : List Char :=
  if o = 0 then ['U', 'T', 'C']
  else
    ['U', 'T', 'C'] ++ (if o < 0 then ['-'] else ['+'])
      ++ pad2 (o.natAbs / 60) ++ [':'] ++ pad2 (o.natAbs % 60)

/-- `datetime.fromisoformat` restricted to the canonical shape
`YYYY-MM-DDTHH:MM:SS` with an optional `±HH:MM` offset (fractional seconds,
other separators and second-resolution offsets are not modelled; day-of-month
is checked against 31 rather than the month length).  Returns `none` on a
`ValueError`, `some none` for a timezone-naive result, and `some (some o)`
for an aware result with UTC offset `o` minutes. -/
def pyFromIso (cs : List Char) : Option (Option Int) :=
  match cs with
  | y1 :: y2 :: y3 :: y4 :: '-' :: m1 :: m2 :: '-' :: d1 :: d2 :: 'T' ::
      h1 :: h2 :: ':' :: i1 :: i2 :: ':' :: s1 :: s2 :: rest =>
    if [y1, y2, y3, y4, m1, m2, d1, d2, h1, h2, i1, i2, s1, s2].all Char.isDigit then
      let mo := digitVal m1 * 10 + digitVal m2
      let da := digitVal d1 * 10 + digitVal d2
      let hh := digitVal h1 * 10 + digitVal h2
      let mi := digitVal i1 * 10 + digitVal i2
      let ss := digitVal s1 * 10 + digitVal s2
      if 1 ≤ mo ∧ mo ≤ 12 ∧ 1 ≤ da ∧ da ≤ 31 ∧ hh ≤ 23 ∧ mi ≤ 59 ∧ ss ≤ 59 then
        match rest with
        | [] => some none
        | [sgn, o1, o2, ':', o3, o4] =>
          if (sgn == '+' || sgn == '-') && [o1, o2, o3, o4].all Char.isDigit then
            let oh := digitVal o1 * 10 + digitVal o2
            let om := digitVal o3 * 10 + digitVal o4
            if oh ≤ 23 ∧ om ≤ 59 then
              let mins : Int := (oh * 60 + om : Nat)
              some (some (if sgn == '-' then -mins else mins))
            else none
          else none
        | _ => none
      else none
    else none
  | _ => none

/-- Lines 42-47 of `_activity_modifier` applied to the tz offset `o` of an
already parsed aware datetime: render `tzname()`, slice `[3:]`, split on
`':'` and compute `int(buff[0])*60 + int(buff[1])`.  `none` models the
caught `ValueError` path (the row records `np.nan`); the single-piece case
with a parseable piece would be an uncaught `IndexError` at `buff[1]` in
Python, but is unreachable for `tznameChars` outputs, whose only
single-piece value is the empty slice of `"UTC"`. -/
def activityRowOffset (o : Int) : Option Int :=
  let buff := pySplit ':' ((tznameChars o).drop 3)
  match buff with
  | a :: b :: _ =>
    match pyInt a, pyInt b with
    | some hrs, some mins => some (hrs * 60 + mins)
    | _, _ => none
  | _ => none

/-- Outcome of one iteration of the `day_start` loop. -/
inductive RowRes where
  | val (z : Int)
  | nan
  | raised (e : PyErr)
deriving DecidableEq, Repr

/-- One iteration of the `for ds in day_start` loop of `_activity_modifier`
on a string cell: an unparseable string raises `ValueError`, which the loop
catches and records `np.nan`; a timezone-naive parse makes `dt.tzname()`
return Python `None`, so the slice `tzname[3:]` raises an uncaught
`TypeError`; an aware parse records the extracted offset (or `np.nan` when
the extraction itself hits a caught `ValueError`, as for a zero offset whose
`tzname()` is just `"UTC"`). -/
def activityExtractRow (cs : List Char) : RowRes :=
  match pyFromIso cs with
  | none => .nan
  | some none => .raised .typeError
  | some (some o) =>
    match activityRowOffset o with
    | some z => .val z
    | none => .nan

/-- The whole extraction loop over the `day_start` column (one cell per row):
builds the `tz_offset` list unless some row raises. -/
def activityTzLoop : List (List Char) → PyResult (List Value)
  | [] => .ok []
  | ds :: rest =>
    match activityExtractRow ds with
    | .raised e => .exn e
    | .nan =>
      match activityTzLoop rest with
      | .exn e => .exn e
      | .ok vs => .ok (Value.nan :: vs)
    | .val z =>
      match activityTzLoop rest with
      | .exn e => .exn e
      | .ok vs => .ok (Value.int z :: vs)

lemma digitCh_facts (k : Nat) (hk : k ≤ 9) :
    (digitCh k).isDigit = true ∧ digitVal (digitCh k) = k ∧
    digitCh k ≠ ':' ∧ digitCh k ≠ '-' ∧ digitCh k ≠ '+' := by
  interval_cases k <;> exact ⟨by decide, by decide, by decide, by decide, by decide⟩

lemma pyNatDigits_pad2 (n : Nat) (hn : n ≤ 99) : pyNatDigits (pad2 n) = some n := by
  have h1 : n / 10 ≤ 9 := by omega
  have h2 : n % 10 ≤ 9 := by omega
  obtain ⟨d1, v1, -, -, -⟩ := digitCh_facts _ h1
  obtain ⟨d2, v2, -, -, -⟩ := digitCh_facts _ h2
  have he : pyNatDigits (pad2 n)
      = some ((0 * 10 + digitVal (digitCh (n / 10))) * 10 + digitVal (digitCh (n % 10))) := by
    simp [pad2, pyNatDigits, d1, d2, List.foldl]
  rw [he, v1, v2, Option.some_inj]
  omega

lemma pySplit_shape (s a b c d : Char) (hs : s ≠ ':') (ha : a ≠ ':') (hb : b ≠ ':')
    (hc : c ≠ ':') (hd : d ≠ ':') :
    pySplit ':' [s, a, b, ':', c, d] = [[s, a, b], [c, d]] := by
  simp [pySplit, hs, ha, hb, hc, hd]

lemma pyInt_pad2 (n : Nat) (hn : n ≤ 99) : pyInt (pad2 n) = some (n : Int) := by
  have h1 : n / 10 ≤ 9 := by omega
  obtain ⟨-, -, -, hm, hp⟩ := digitCh_facts _ h1
  have he : pad2 n = digitCh (n / 10) :: [digitCh (n % 10)] := rfl
  rw [he]
  simp only [pyInt, beq_iff_eq, hm, hp, if_false]
  rw [← he, pyNatDigits_pad2 n hn]
  rfl

lemma pyInt_neg_pad2 (n : Nat) (hn : n ≤ 99) :
    pyInt ('-' :: pad2 n) = some (-(n : Int)) := by
  simp [pyInt, pyNatDigits_pad2 n hn]

lemma pyInt_pos_pad2 (n : Nat) (hn : n ≤ 99) :
    pyInt ('+' :: pad2 n) = some ((n : Int)) := by
  simp [pyInt, pyNatDigits_pad2 n hn]

/-- What the source's slice/split/int pipeline actually computes for an aware
datetime with nonzero offset: `int` of the signed hour field times 60 plus
`int` of the (always non-negative) minute field. -/
lemma activityRowOffset_nonzero (neg : Bool) (hh mm : Nat) (hhh : hh ≤ 23) (hmm : mm ≤ 59)
    (hpos : 0 < hh * 60 + mm) :
    activityRowOffset (if neg then -((hh * 60 + mm : Nat) : Int) else ((hh * 60 + mm : Nat) : Int))
      = some ((if neg then -(hh : Int) else (hh : Int)) * 60 + mm) := by
  obtain ⟨-, -, hc1, -, -⟩ := digitCh_facts (hh / 10) (by omega)
  obtain ⟨-, -, hc2, -, -⟩ := digitCh_facts (hh % 10) (by omega)
  obtain ⟨-, -, hc3, -, -⟩ := digitCh_facts (mm / 10) (by omega)
  obtain ⟨-, -, hc4, -, -⟩ := digitCh_facts (mm % 10) (by omega)
  cases neg
  · simp only [if_false, Bool.false_eq_true]
    have hne : ((hh * 60 + mm : Nat) : Int) ≠ 0 := by omega
    have hnlt : ¬ ((hh * 60 + mm : Nat) : Int) < 0 := by omega
    have habs : ((hh * 60 + mm : Nat) : Int).natAbs = hh * 60 + mm := by omega
    have htz : (tznameChars ((hh * 60 + mm : Nat) : Int)).drop 3
        = '+' :: digitCh (hh / 10) :: digitCh (hh % 10) :: ':'
            :: digitCh (mm / 10) :: [digitCh (mm % 10)] := by
      rw [tznameChars, if_neg hne, if_neg hnlt, habs]
      have hdiv : (hh * 60 + mm) / 60 = hh := by omega
      have hmod : (hh * 60 + mm) % 60 = mm := by omega
      rw [hdiv, hmod]
      simp [pad2]
    have hsplit := pySplit_shape '+' (digitCh (hh / 10)) (digitCh (hh % 10))
      (digitCh (mm / 10)) (digitCh (mm % 10)) (by decide) hc1 hc2 hc3 hc4
    rw [activityRowOffset]
    simp only [htz, hsplit]
    rw [show ('+' :: digitCh (hh / 10) :: [digitCh (hh % 10)]) = '+' :: pad2 hh from rfl,
      show (digitCh (mm / 10) :: [digitCh (mm % 10)]) = pad2 mm from rfl,
      pyInt_pos_pad2 hh (by omega), pyInt_pad2 mm (by omega)]
  · simp only [if_true]
    have hne : -((hh * 60 + mm : Nat) : Int) ≠ 0 := by omega
    have hlt : -((hh * 60 + mm : Nat) : Int) < 0 := by omega
    have habs : (-((hh * 60 + mm : Nat) : Int)).natAbs = hh * 60 + mm := by omega
    have htz : (tznameChars (-((hh * 60 + mm : Nat) : Int))).drop 3
        = '-' :: digitCh (hh / 10) :: digitCh (hh % 10) :: ':'
            :: digitCh (mm / 10) :: [digitCh (mm % 10)] := by
      rw [tznameChars, if_neg hne, if_pos hlt, habs]
      have hdiv : (hh * 60 + mm) / 60 = hh := by omega
      have hmod : (hh * 60 + mm) % 60 = mm := by omega
      rw [hdiv, hmod]
      simp [pad2]
    have hsplit := pySplit_shape '-' (digitCh (hh / 10)) (digitCh (hh % 10))
      (digitCh (mm / 10)) (digitCh (mm % 10)) (by decide) hc1 hc2 hc3 hc4
    rw [activityRowOffset]
    simp only [htz, hsplit]
    rw [show ('-' :: digitCh (hh / 10) :: [digitCh (hh % 10)]) = '-' :: pad2 hh from rfl,
      show (digitCh (mm / 10) :: [digitCh (mm % 10)]) = pad2 mm from rfl,
      pyInt_neg_pad2 hh (by omega), pyInt_pad2 mm (by omega)]

/-- Claim C4, counterexample: for `day_start = "2024-01-01T08:00:00-09:30"`
(UTC offset of -9 hours 30 minutes) the code records -510, not the
sign(h)*(|h|*60+m) = -570 demanded by the claim: the source computes
`int("-09")*60 + int("30") = -540 + 30`, applying the sign only to the hour
part. -/
theorem activity_tzoffset_cex :
    activityExtractRow ("2024-01-01T08:00:00-09:30".toList) = .val (-510) ∧
    ((-510 : Int) ≠ Int.sign (-9) * ((9 : Int) * 60 + 30)) := by
  exact ⟨by decide, by decide⟩

/-- Claim C4 (amended): for a `day_start` cell that parses as an ISO-8601
timestamp with a nonzero UTC offset whose rendered form is `±HH:MM`, the
recorded tzoffset is `int(±HH) * 60 + MM` — the sign is applied to the hour
field only (so "-04:00" yields -240 and "+05:30" yields 330 as the claim
says, but "-09:30" yields -510, not -570, and "-00:30" yields +30); a cell
with a zero total offset (whose `tzname()` is plain `"UTC"`) records a
missing value, as does an unparseable cell; and the extraction loop never
fails a batch whose cells all avoid the timezone-naive case. -/
theorem activity_tzoffset_amended :
    (∀ (cs : List Char) (neg : Bool) (hh mm : Nat), hh ≤ 23 → mm ≤ 59 → 0 < hh * 60 + mm →
        pyFromIso cs
          = some (some (if neg then -((hh * 60 + mm : Nat) : Int) else ((hh * 60 + mm : Nat) : Int))) →
        activityExtractRow cs = .val ((if neg then -(hh : Int) else (hh : Int)) * 60 + mm)) ∧
    (∀ cs : List Char, pyFromIso cs = none → activityExtractRow cs = .nan) ∧
    (∀ cs : List Char, pyFromIso cs = some (some 0) → activityExtractRow cs = .nan) ∧
    (∀ rows : List (List Char), (∀ ds ∈ rows, pyFromIso ds ≠ some none) →
        ∃ vs, activityTzLoop rows = .ok vs ∧ vs.length = rows.length) := by
  refine ⟨?_, ?_, ?_, ?_⟩
  · intro cs neg hh mm hhh hmm hpos hparse
    have h := activityRowOffset_nonzero neg hh mm hhh hmm hpos
    simp only [activityExtractRow, hparse, h]
  · intro cs hparse
    simp only [activityExtractRow, hparse]
  · intro cs hparse
    simp only [activityExtractRow, hparse]
    decide
  · intro rows hnonaive
    induction rows with
    | nil => exact ⟨[], rfl, rfl⟩
    | cons ds rest ih =>
      obtain ⟨vs, hvs, hlen⟩ := ih (fun d hd => hnonaive d (List.mem_cons_of_mem ds hd))
      have hds := hnonaive ds (List.mem_cons_self ds rest)
      rw [activityTzLoop]
      cases hp : pyFromIso ds with
      | none =>
        rw [show activityExtractRow ds = .nan from by simp only [activityExtractRow, hp]]
        exact ⟨Value.nan :: vs, by rw [hvs], by simp [hlen]⟩
      | some o =>
        cases o with
        | none => exact absurd hp hds
        | some z =>
          cases hro : activityRowOffset z with
          | none =>
            rw [show activityExtractRow ds = .nan from by simp only [activityExtractRow, hp, hro]]
            exact ⟨Value.nan :: vs, by rw [hvs], by simp [hlen]⟩
          | some w =>
            rw [show activityExtractRow ds = .val w from by simp only [activityExtractRow, hp, hro]]
            exact ⟨Value.int w :: vs, by rw [hvs], by simp [hlen]⟩

/-- Witness for the amended claim C4: the spec's own example "+05:30" gives
330, and an unparseable cell records a missing value. -/
theorem activity_tzoffset_amended_witness :
    activityExtractRow ("2024-01-01T08:00:00+05:30".toList) = .val 330 ∧
    activityExtractRow ("corrupt".toList) = .nan := by
  constructor
  · have h := activity_tzoffset_amended.1 ("2024-01-01T08:00:00+05:30".toList) false 5 30
      (by decide) (by decide) (by decide) (by decide)
    rw [h]
    decide
  · exact activity_tzoffset_amended.2.1 ("corrupt".toList) (by decide)

/-! ## Whitelist loader (`utils.createTableWhitelist`, utils.py 18-32)

The source reads `whitelist.txt` (file lookup and the fatal missing-file
exception are external I/O and are not modelled; the function below takes
the file's content), iterates over `f.readlines()` and, for each line with
`len(line) > 0`, appends `line.strip()` to the result. -/

/-- Python file `readlines()`: split into lines, each keeping its trailing
newline; a final fragment without a newline is kept too.  No element is
ever the empty string. -/
def pyReadlines : List Char → List (List Char)
  | [] => []
  | c :: r =>
    if c == '\n' then ['\n'] :: pyReadlines r
    else
      match pyReadlines r with
      | [] => [[c]]
      | l :: ls => (c :: l) :: ls

/-- ASCII whitespace recognized by Python `str.strip()` (the Unicode cases
are not modelled). -/
def isPySpace (c : Char) : Bool :=
  c == ' ' || c == '\t' || c == '\n' || c == '\r' || c == '\x0b' || c == '\x0c'

/-- Python `str.strip()`: drop leading and trailing whitespace. -/
def pyStrip (cs : List Char) : List Char :=
  ((cs.dropWhile isPySpace).reverse.dropWhile isPySpace).reverse

/-- `createTableWhitelist`, given the content of `whitelist.txt`: for each
line of `readlines()`, if `len(line) > 0`, append the stripped line. -/
def createTableWhitelist (content : List Char) : List (List Char) :=
  List.foldl (fun tables line => if line.length > 0 then tables ++ [pyStrip line] else tables)
    [] (pyReadlines content)

lemma pyReadlines_ne_nil (content : List Char) :
    ∀ l ∈ pyReadlines content, l ≠ [] := by
  induction content with
  | nil => intro l hl; simp [pyReadlines] at hl
  | cons c r ih =>
    intro l hl
    rw [pyReadlines] at hl
    by_cases hc : c = '\n'
    · rw [if_pos (by simp [hc])] at hl
      rcases List.mem_cons.mp hl with h | h
      · subst h; simp
      · exact ih l h
    · rw [if_neg (by simp [hc])] at hl
      rcases hr : pyReadlines r with - | ⟨l0, ls⟩
      · rw [hr] at hl
        simp only [List.mem_singleton] at hl
        subst hl; simp
      · rw [hr] at hl
        rcases List.mem_cons.mp hl with h | h
        · subst h; simp
        · exact ih l (by rw [hr]; exact List.mem_cons_of_mem l0 h)

lemma whitelist_foldl (lines : List (List Char)) (hne : ∀ l ∈ lines, l ≠ []) :
    ∀ acc, List.foldl (fun tables line => if line.length > 0 then tables ++ [pyStrip line] else tables)
      acc lines = acc ++ lines.map pyStrip := by
  induction lines with
  | nil => intro acc; simp
  | cons l ls ih =>
    intro acc
    have hl : l.length > 0 := by
      have := hne l (List.mem_cons_self l ls)
      cases l with
      | nil => simp at this
      | cons a b => simp
    simp only [List.foldl, if_pos hl]
    rw [ih (fun x hx => hne x (List.mem_cons_of_mem l hx))]
    simp

/-- Claim C7, counterexample: on the file content `"a\n\nb"` the loader
returns three entries — the blank middle line is not ignored but yields an
empty-string entry, because `len(line) > 0` is tested before stripping and
`readlines()` lines always contain their newline. -/
theorem whitelist_cex :
    createTableWhitelist ['a', '\n', '\n', 'b'] = [['a'], [], ['b']] ∧
    createTableWhitelist ['a', '\n', '\n', 'b'] ≠ [['a'], ['b']] := by
  exact ⟨by decide, by decide⟩

/-- Claim C7 (amended): the loader returns one entry per `readlines()` line,
in order, each with leading/trailing whitespace trimmed; blank lines are
not dropped — a whitespace-only line contributes an empty-string entry
(the `len(line) > 0` guard is vacuous because every `readlines()` line is
nonempty). -/
theorem whitelist_amended (content : List Char) :
    createTableWhitelist content = (pyReadlines content).map pyStrip := by
  rw [createTableWhitelist, whitelist_foldl (pyReadlines content) (pyReadlines_ne_nil content) []]
  simp

/-! ## Filename router (`Ingestor.ingestor`, Ingestor.py 139-152)

The source applies `re.match` with pattern
`^([a-z0-9]+)_(\d+)_([a-z]+)_(\d+)\.csv$` and `re.IGNORECASE`; on a match,
`table_name = group(1).replace('-', '_')` and `pid = group(4)`; otherwise
the file is skipped with a warning.  Because each character class excludes
the `'_'` and `'.'` separators that follow it, greedy matching without
backtracking is equivalent to the regex, and is what `spanChars` below
implements.  (Python's `$` also matching before a trailing newline is not
modelled; directory entries do not contain newlines.) -/

/-- Greedy longest-prefix split on a character class (one `+` group). -/
def spanChars (p : Char → Bool) : List Char → List Char × List Char
  | [] => ([], [])
  | c :: rest =>
    if p c then
      let r := spanChars p rest
      (c :: r.1, r.2)
    else ([], c :: rest)

/-- Character class `[a-z0-9]` under `re.IGNORECASE` (ASCII). -/
def isTableChar (c : Char) : Bool :=
  ('a' ≤ c && c ≤ 'z') || ('A' ≤ c && c ≤ 'Z') || ('0' ≤ c && c ≤ '9')

/-- Character class `[a-z]` under `re.IGNORECASE` (ASCII). -/
def isAlphaCI (c : Char) : Bool :=
  ('a' ≤ c && c ≤ 'z') || ('A' ≤ c && c ≤ 'Z')

/-- The literal tail `\.csv$`, case-insensitive. -/
def endsCsvTail (l : List Char) : Bool :=
  match l with
  | ['.', x, y, z] =>
    (x == 'c' || x == 'C') && (y == 's' || y == 'S') && (z == 'v' || z == 'V')
  | _ => false

/-- The literal `_` separator of the pattern: succeeds exactly when the
remaining input starts with an underscore. -/
def expectUnderscore : List Char → Option (List Char)
  | c :: rest => if c == '_' then some rest else none
  | [] => none

/-- `re.match` of the filename pattern: `some (g1, g2, g3, g4)` with the four
captured groups, `none` when the name does not match. -/
def matchFilename (cs : List Char) : Option (List Char × List Char × List Char × List Char) :=
  let s1 := spanChars isTableChar cs
  if s1.1.isEmpty then none else
  match expectUnderscore s1.2 with
  | none => none
  | some r1 =>
    let s2 := spanChars Char.isDigit r1
    if s2.1.isEmpty then none else
    match expectUnderscore s2.2 with
    | none => none
    | some r2 =>
      let s3 := spanChars isAlphaCI r2
      if s3.1.isEmpty then none else
      match expectUnderscore s3.2 with
      | none => none
      | some r3 =>
        let s4 := spanChars Char.isDigit r3
        if s4.1.isEmpty then none else
        if endsCsvTail s4.2 then some (s1.1, s2.1, s3.1, s4.1) else none

/-- `table_name.replace('-', '_')`, applied characterwise. -/
def foldHyphen (c : Char) : Char := if c == '-' then '_' else c

/-- The router step of `ingestor`: on a match, the routed
`(table_name, pid)` pair; on a non-match, `none` (the file is skipped with
a warning, no exception). -/
def routeFilename (filename : String) : Option (String × String) :=
  match matchFilename filename.toList with
  | none => none
  | some (g1, _, _, g4) => some (String.mk (g1.map foldHyphen), String.mk g4)

lemma spanChars_all (p : Char → Bool) (l : List Char) :
    (spanChars p l).1.all p = true := by
  induction l with
  | nil => simp [spanChars]
  | cons c rest ih =>
    by_cases hc : p c
    · simp [spanChars, hc, ih]
    · simp [spanChars, hc]

lemma matchFilename_groups (cs g1 g2 g3 g4 : List Char)
    (h : matchFilename cs = some (g1, g2, g3, g4)) :
    g1 ≠ [] ∧ g1.all isTableChar = true ∧ g4 ≠ [] ∧ g4.all Char.isDigit = true := by
  simp only [matchFilename] at h
  by_cases h1 : (spanChars isTableChar cs).1.isEmpty = true
  · rw [if_pos h1] at h; exact absurd h (by simp)
  · rw [if_neg h1] at h
    rcases he1 : expectUnderscore (spanChars isTableChar cs).2 with - | r1 <;> simp only [he1] at h
    · exact absurd h (by simp)
    by_cases h2 : (spanChars Char.isDigit r1).1.isEmpty = true
    · rw [if_pos h2] at h; exact absurd h (by simp)
    rw [if_neg h2] at h
    rcases he2 : expectUnderscore (spanChars Char.isDigit r1).2 with - | r2 <;> simp only [he2] at h
    · exact absurd h (by simp)
    by_cases h3 : (spanChars isAlphaCI r2).1.isEmpty = true
    · rw [if_pos h3] at h; exact absurd h (by simp)
    rw [if_neg h3] at h
    rcases he3 : expectUnderscore (spanChars isAlphaCI r2).2 with - | r3 <;> simp only [he3] at h
    · exact absurd h (by simp)
    by_cases h4 : (spanChars Char.isDigit r3).1.isEmpty = true
    · rw [if_pos h4] at h; exact absurd h (by simp)
    rw [if_neg h4] at h
    by_cases h5 : endsCsvTail (spanChars Char.isDigit r3).2 = true
    · rw [if_pos h5] at h
      simp only [Option.some_inj, Prod.mk.injEq] at h
      obtain ⟨e1, e2, e3, e4⟩ := h
      refine ⟨?_, ?_, ?_, ?_⟩
      · rw [← e1]; intro hnil; exact h1 (by rw [hnil]; rfl)
      · rw [← e1]; exact spanChars_all isTableChar cs
      · rw [← e4]; intro hnil; exact h4 (by rw [hnil]; rfl)
      · rw [← e4]; exact spanChars_all Char.isDigit r3
    · rw [if_neg h5] at h; exact absurd h (by simp)

lemma pyInt_digits (cs : List Char) (hne : cs ≠ []) (hdig : cs.all Char.isDigit = true) :
    ∃ n : Nat, pyInt cs = some ((n : Nat) : Int) := by
  cases cs with
  | nil => exact absurd rfl hne
  | cons c rest =>
    have hc : c.isDigit = true := List.all_eq_true.mp hdig c (List.mem_cons_self c rest)
    have hm : (c == '-') = false := by
      by_contra hx
      simp only [Bool.not_eq_false, beq_iff_eq] at hx
      rw [hx] at hc
      exact absurd hc (by decide)
    have hp : (c == '+') = false := by
      by_contra hx
      simp only [Bool.not_eq_false, beq_iff_eq] at hx
      rw [hx] at hc
      exact absurd hc (by decide)
    rw [pyInt, hm, hp]
    simp only [Bool.false_eq_true, if_false]
    rw [pyNatDigits]
    simp only [List.isEmpty_cons, Bool.false_eq_true, if_false, hdig, if_pos]
    exact ⟨_, rfl⟩

lemma map_foldHyphen_id (l : List Char) (hall : l.all isTableChar = true) :
    l.map foldHyphen = l := by
  induction l with
  | nil => rfl
  | cons c rest ih =>
    simp only [List.all_cons, Bool.and_eq_true] at hall
    have hc : (c == '-') = false := by
      by_contra hx
      simp only [Bool.not_eq_false, beq_iff_eq] at hx
      rw [hx] at hall
      exact absurd hall.1 (by decide)
    simp [foldHyphen, hc, ih hall.2]

/-- Claim C6, counterexample: the pattern is matched case-insensitively but
the extracted table name is not lowercased — `"TEMP_1_oura_2.csv"` routes to
table name `"TEMP"`, which contains uppercase letters. -/
theorem router_cex :
    routeFilename "TEMP_1_oura_2.csv" = some ("TEMP", "2") ∧
    ("TEMP".toList.any Char.isUpper = true) := by
  exact ⟨by decide, by decide⟩

/-- Claim C6 (amended): for every filename matching the case-insensitive
pattern, the router extracts the table name as group 1 with hyphens replaced
by underscores — a no-op, since the `[a-z0-9]` class admits no hyphen, and
letter case is preserved, so the name need not be lowercase — and the
participant id as group 4, a nonempty digit string that parses as a
non-negative integer; every non-matching filename is skipped (`none`),
without an exception. -/
theorem router_amended :
    (∀ (f : String) (g1 g2 g3 g4 : List Char),
        matchFilename f.toList = some (g1, g2, g3, g4) →
        routeFilename f = some (String.mk g1, String.mk g4) ∧
        g1.map foldHyphen = g1 ∧ g4 ≠ [] ∧
        ∃ n : Nat, pyInt g4 = some ((n : Nat) : Int)) ∧
    (∀ f : String, matchFilename f.toList = none → routeFilename f = none) := by
  constructor
  · intro f g1 g2 g3 g4 h
    obtain ⟨h1ne, h1all, h4ne, h4dig⟩ := matchFilename_groups f.toList g1 g2 g3 g4 h
    have hmap : g1.map foldHyphen = g1 := map_foldHyphen_id g1 h1all
    refine ⟨?_, hmap, h4ne, pyInt_digits g4 h4ne h4dig⟩
    simp only [routeFilename, h]
    rw [hmap]
  · intro f h
    simp only [routeFilename, h]

/-- Witness for the amended claim C6 at the filename
`"temperature_1_oura_23.csv"`. -/
theorem router_amended_witness :
    routeFilename "temperature_1_oura_23.csv" = some ("temperature", "23") ∧
    routeFilename "notes.txt" = none := by
  constructor
  · have h := router_amended.1 "temperature_1_oura_23.csv" "temperature".toList "1".toList
      "oura".toList "23".toList (by decide)
    rw [h.1]
    decide
  · exact router_amended.2 "notes.txt" (by decide)

/-! ## Lake-table backend adapter (`utils.uploadToAWS`, utils.py 34-70, and
`Ingestor._backend_athena`, Ingestor.py 198-219)

`wr.s3.to_parquet` is a network call and is modelled by the oracle
`toParquetExn`: `none` means the call returned normally, `some e` that it
raised an exception whose `repr` text is `e`.  The source first builds
`table_path = f"{s3_path}/{table_name}/"`, then tests `s3_path[-1] == '/'`
— an `IndexError` when `s3_path` is the empty string, raised outside the
`try` block — and finally runs the upload inside `try/except Exception`. -/

/-- The `table_path` the source passes to the backend (defined for nonempty
`s3_path`). -/
def awsTablePath (s3_path table_name : String) : String :=
  if s3_path.toList.getLast? == some '/' then s3_path ++ table_name ++ "/"
  else s3_path ++ "/" ++ table_name ++ "/"

/-- `uploadToAWS(df, s3_path, database, table_name, partition_key)`. -/
def uploadToAWS (toParquetExn : DataFrame → String → Option String)
    (df : DataFrame) (s3_path database table_name partition_key : String) :
    PyResult (Bool × Option String) :=
  match s3_path.toList.getLast? with
  | none => .exn .indexError
  | some c =>
    let table_path :=
      if c == '/' then s3_path ++ table_name ++ "/"
      else s3_path ++ "/" ++ table_name ++ "/"
    match toParquetExn df table_path with
    | none => .ok (true, none)
    | some e => .ok (false, some ("ERROR : in writing parquet files: " ++ e))

/-- `_backend_athena(df, database, table_name, s3_path)`: delegates to
`uploadToAWS` with partition key `"pid"`. -/
def backendAthena (toParquetExn : DataFrame → String → Option String)
    (df : DataFrame) (database table_name s3_path : String) :
    PyResult (Bool × Option String) :=
  uploadToAWS toParquetExn df s3_path database table_name "pid"

/-- Claim C5, counterexample: with the empty string as the s3 path the
adapter raises an `IndexError` (`s3_path[-1]` on line 50 of utils.py runs
outside the `try` block) instead of returning a `(success, message)` pair
— even when the backend itself would succeed. -/
theorem uploadToAWS_cex :
    backendAthena (fun _ _ => none) dfEmpty "db" "temperature" "" = .exn .indexError := by
  decide

/-- Claim C5 (amended): for every nonempty s3 path, the adapter returns a
`(success flag, error message)` pair and never raises: a normal backend
return yields `(true, none)` and a backend exception with text `e` is caught
and converted to `(false, "ERROR : in writing parquet files: " ++ e)`.  For
the empty s3 path the path-construction indexing raises `IndexError` before
the `try` block (see the counterexample). -/
theorem uploadToAWS_amended (toParquetExn : DataFrame → String → Option String)
    (df : DataFrame) (s3_path database table_name partition_key : String)
    (hne : s3_path ≠ "") :
    uploadToAWS toParquetExn df s3_path database table_name partition_key
      = .ok (match toParquetExn df (awsTablePath s3_path table_name) with
             | none => (true, none)
             | some e => (false, some ("ERROR : in writing parquet files: " ++ e))) := by
  have hlist : s3_path.toList ≠ [] := by
    intro hl
    apply hne
    cases s3_path with
    | mk data =>
      cases data with
      | nil => rfl
      | cons a b => exact absurd hl (by simp [String.toList])
  rcases hg : s3_path.toList.getLast? with - | c
  · exact absurd (List.getLast?_eq_none_iff.mp hg) hlist
  · rw [uploadToAWS, hg]
    rw [awsTablePath, hg]
    cases hp : toParquetExn df (if (some c == some '/') then s3_path ++ table_name ++ "/"
        else s3_path ++ "/" ++ table_name ++ "/") <;>
      by_cases hc : c = '/' <;>
        simp_all [Option.some_inj]

/-- Witness for the amended claim C5: a nonempty path with a failing backend
yields the caught-and-converted result. -/
theorem uploadToAWS_amended_witness :
    uploadToAWS (fun _ _ => some "boom") dfEmpty "s3://bucket/x" "db" "temperature" "pid"
      = .ok (false, some ("ERROR : in writing parquet files: boom")) := by
  have h := uploadToAWS_amended (fun _ _ => some "boom") dfEmpty "s3://bucket/x" "db"
    "temperature" "pid" (by decide)
  rw [h]
  rfl

/-! ## Warehouse backend adapter (`Ingestor._backend_clickhouse`, Ingestor.py 221-329,
and `utils.uploadToClickHouse`, utils.py 72-100)

The ClickHouse client is external and is modelled by `ClientStub`:
`describe tbl = none` means `client.query("DESCRIBE TABLE tbl")` raised,
otherwise it returns the column-name/column-type rows; `insertDf` likewise
models `client.insert_df`.  To express the frame/no-mutation claim, Python
object identity is modelled by a heap: a list of `DataFrame`s indexed by
address.  `df.copy()` allocates a fresh address at the end of the heap and
every later column assignment writes through the local (copied) address
only. -/

/-- A ClickHouse table schema: the (column name, column type) rows of
`DESCRIBE TABLE`, in order. -/
abbrev Schema := List (String × String)

/-- The process-wide `clickhouse_schema_cache` dict. -/
abbrev SchemaCache := List (String × Schema)

/-- Oracle for the external ClickHouse client. -/
structure ClientStub where
  describe : String → Option Schema
  insertDf : String → DataFrame → Option String

/-- Whether `pat` is a leading segment of `l`. -/
def leadsWith : List Char → List Char → Bool
  | [], _ => true
  | _ :: _, [] => false
  | p :: ps, c :: cs => p == c && leadsWith ps cs

/-- Python `pat in s` substring test. -/
def hasSub (pat : List Char) : List Char → Bool
  | [] => leadsWith pat []
  | c :: cs => leadsWith pat (c :: cs) || hasSub pat cs

/-- `'DateTime' in column_type or 'Date' in column_type` (line 285). -/
def isTemporalType (column_type : String) : Bool :=
  hasSub "DateTime".toList column_type.toList || hasSub "Date".toList column_type.toList

/-- `'String' in column_type` (line 319). -/
def isStringType (column_type : String) : Bool :=
  hasSub "String".toList column_type.toList

/-- `pd.isna` on a cell. -/
def isNanV : Value → Bool
  | .nan => true
  | _ => false

/-- Column dtype test `df[c].dtype == 'datetime64[ns]'`: all cells are
timezone-naive timestamps or NaT.  (A column holding any other value has
object/numeric/tz-aware dtype and is sent through `pd.to_datetime`.) -/
def isDatetime64ns (vs : List Value) : Bool :=
  vs.all fun v =>
    match v with
    | .ts none => true
    | .nan => true
    | _ => false

/-- One cell under `pd.to_datetime` (line 289, no `utc` flag): timestamps
pass through, strings are ISO-parsed (keeping their offset), integers are
epoch values (naive), NaN becomes NaT; an unparseable string raises. -/
def pdToDatetimeVal : Value → Option Value
  | .ts tz => some (.ts tz)
  | .str s => (pyFromIso s.toList).map (fun tz => Value.ts tz)
  | .int _ => some (.ts none)
  | .nan => some .nan

/-- Lines 296-299: sample the first non-null cell and test
`sample.tzinfo is not None`. -/
def sampleTzAware (vs : List Value) : Bool :=
  match vs.find? (fun v => !isNanV v) with
  | some (.ts (some _)) => true
  | _ => false

/-- Lines 303-311: per-row UTC offset in minutes; null rows record None
(modelled as a missing value).  A naive cell inside a tz-aware column cannot
occur for a well-dtyped column and is mapped to a missing value as well. -/
def offsetMinutesVal : Value → Value
  | .nan => .nan
  | .ts (some o) => .int o
  | _ => .nan

/-- Line 323 `fillna('')` on one cell. -/
def fillnaEmpty (v : Value) : Value :=
  if isNanV v then .str "" else v

/-- The per-column processing loop of `_backend_clickhouse` (lines 276-324),
operating through the heap on the local (copied) frame at address `a`.
Returns the updated heap and `some (status, err)` on an early return,
`none` when the loop completed and control falls through to the upload.
All heap writes target address `a`. -/
def chProcessCols (schemaFull : Schema) (tbl : String) :
    Schema → List DataFrame → Nat → List DataFrame × Option (Bool × Option String)
  | [], hp, _ => (hp, none)
  | (cname, ctype) :: rest, hp, a =>
    let df := hp.getD a dfEmpty
    match List.lookup cname df.cols with
    | none =>
      (hp, some (false, some ("Column " ++ cname ++ " exists in ClickHouse table "
        ++ tbl ++ " schema but not in provided DataFrame")))
    | some vs =>
      if isTemporalType ctype then
        match (if isDatetime64ns vs then some vs else vs.mapM pdToDatetimeVal) with
        | none =>
          (hp, some (false, some ("Cannot convert column " ++ cname
            ++ " to datetime as required by ClickHouse schema for table " ++ tbl)))
        | some vs1 =>
          let df1 := setCol df cname vs1
          let df2 :=
            if sampleTzAware vs1 && (List.lookup "tzoffset" schemaFull).isSome then
              setCol df1 "tzoffset" (vs1.map offsetMinutesVal)
            else df1
          chProcessCols schemaFull tbl rest (hp.set a df2) a
      else if isStringType ctype then
        let df1 := if vs.any isNanV then setCol df cname (vs.map fillnaEmpty) else df
        chProcessCols schemaFull tbl rest (hp.set a df1) a
      else chProcessCols schemaFull tbl rest hp a

/-- Result of one `_backend_clickhouse` call: the heap and cache after the
call, the returned `(status, err)` pair, and how many `DESCRIBE TABLE`
metadata queries the call issued (0 or 1). -/
structure CHOut where
  heap : List DataFrame
  cache : SchemaCache
  status : Bool
  err : Option String
  describeCount : Nat
deriving Repr

/-- Lines 271-329: everything after the schema is known — `df = df.copy()`
(a fresh heap address), the per-column processing loop, and the final
`uploadToClickHouse` whose exceptions are caught and converted. -/
def chAfterCache (cl : ClientStub) (heap : List DataFrame) (a : Nat) (tbl : String)
    (sch : Schema) (cache1 : SchemaCache) (cnt : Nat) : CHOut :=
  let hp1 := heap ++ [heap.getD a dfEmpty]
  let la := heap.length
  match chProcessCols sch tbl sch hp1 la with
  | (hp2, some (st, er)) => ⟨hp2, cache1, st, er, cnt⟩
  | (hp2, none) =>
    match cl.insertDf tbl (hp2.getD la dfEmpty) with
    | none => ⟨hp2, cache1, true, none, cnt⟩
    | some e => ⟨hp2, cache1, false, some ("ERROR: in inserting data to ClickHouse: " ++ e), cnt⟩

/-- `_backend_clickhouse(df, table_name, clickhouse_client)` with the caller
batch living at heap address `a`. -/
def backendClickhouse (heap : List DataFrame) (a : Nat) (tbl : String)
    (cache : SchemaCache) (client : Option ClientStub) : CHOut :=
  match client with
  | none => ⟨heap, cache, false, some "ClickHouse client not provided", 0⟩
  | some cl =>
    match List.lookup tbl cache with
    | some sch => chAfterCache cl heap a tbl sch cache 0
    | none =>
      match cl.describe tbl with
      | none => ⟨heap, cache, false, some ("Table " ++ tbl ++ " does not exist in ClickHouse"), 1⟩
      | some sch => chAfterCache cl heap a tbl sch ((tbl, sch) :: cache) 1

/-- A run of warehouse inserts: each call names the heap address of its
batch and the destination table; threads the heap and the process-wide
schema cache and logs `(table, describe-query count)` per call. -/
def chRun (client : Option ClientStub) :
    List (Nat × String) → List DataFrame → SchemaCache →
    List (String × Nat) × List DataFrame × SchemaCache
  | [], heap, cache => ([], heap, cache)
  | (a, tbl) :: rest, heap, cache =>
    let r := backendClickhouse heap a tbl cache client
    let rec1 := chRun client rest r.heap r.cache
    ((tbl, r.describeCount) :: rec1.1, rec1.2)

/-- Total number of metadata queries issued for `tbl` in a run's log. -/
def queriesFor : List (String × Nat) → String → Nat
  | [], _ => 0
  | (t, c) :: rest, tbl => (if t == tbl then c else 0) + queriesFor rest tbl

lemma getq_set_ne {α : Type} (l : List α) (i j : Nat) (v : α) (h : i ≠ j) :
    (l.set i v).get? j = l.get? j := by
  induction l generalizing i j with
  | nil => simp
  | cons x xs ih =>
    cases i with
    | zero =>
      cases j with
      | zero => exact absurd rfl h
      | succ j => simp [List.set]
    | succ i =>
      cases j with
      | zero => simp [List.set]
      | succ j => simpa [List.set] using ih i j (fun he => h (by rw [he]))

lemma getq_append_left {α : Type} (l l' : List α) (j : Nat) (h : j < l.length) :
    (l ++ l').get? j = l.get? j := by
  induction l generalizing j with
  | nil => simp at h
  | cons x xs ih =>
    cases j with
    | zero => simp
    | succ j => simpa using ih j (by simpa using h)

lemma chProcessCols_frame (schemaFull : Schema) (tbl : String) (cols : Schema) :
    ∀ (hp : List DataFrame) (a j : Nat), j ≠ a →
      ((chProcessCols schemaFull tbl cols hp a).1).get? j = hp.get? j := by
  induction cols with
  | nil => intro hp a j hj; rfl
  | cons col rest ih =>
    intro hp a j hj
    rw [chProcessCols]
    cases List.lookup col.1 ((hp.getD a dfEmpty).cols) with
    | none => rfl
    | some vs =>
      simp only
      by_cases ht : isTemporalType col.2 = true
      · rw [if_pos ht]
        cases hconv : (if isDatetime64ns vs then some vs else vs.mapM pdToDatetimeVal) with
        | none => rfl
        | some vs1 =>
          simp only
          rw [ih (hp.set a _) a j hj, getq_set_ne hp a j _ (fun he => hj he.symm)]
      · rw [if_neg ht]
        by_cases hs : isStringType col.2 = true
        · rw [if_pos hs]
          rw [ih (hp.set a _) a j hj, getq_set_ne hp a j _ (fun he => hj he.symm)]
        · rw [if_neg hs]
          exact ih hp a j hj

lemma chAfterCache_frame (cl : ClientStub) (heap : List DataFrame) (a : Nat) (tbl : String)
    (sch : Schema) (cache1 : SchemaCache) (cnt : Nat) (ha : a < heap.length) :
    (chAfterCache cl heap a tbl sch cache1 cnt).heap.get? a = heap.get? a := by
  rw [chAfterCache]
  have hstep : ((chProcessCols sch tbl sch (heap ++ [heap.getD a dfEmpty]) heap.length).1).get? a
      = heap.get? a := by
    rw [chProcessCols_frame sch tbl sch (heap ++ [heap.getD a dfEmpty]) heap.length a
      (by omega), getq_append_left heap _ a ha]
  cases hpc : chProcessCols sch tbl sch (heap ++ [heap.getD a dfEmpty]) heap.length with
  | mk hp2 res =>
    cases res with
    | none =>
      simp only
      cases cl.insertDf tbl (hp2.getD heap.length dfEmpty) <;>
        simpa using (by rw [← hstep, hpc] : heap.get? a = hp2.get? a).symm
    | some p =>
      cases p with
      | mk st er =>
        simpa using (by rw [← hstep, hpc] : heap.get? a = hp2.get? a).symm

/-- Claim C10: the warehouse backend adapter never modifies the caller's
batch: the first thing the post-schema code does is `df = df.copy()`
(a fresh heap address), and every subsequent column assignment — datetime
coercion, tzoffset recomputation, null-to-empty-string fill — writes to the
copy, so the frame at the caller's address is unchanged whether the call
fails early (missing client, unknown table, schema mismatch, coercion
failure) or reaches the upload, and whether the upload succeeds or fails. -/
theorem backendClickhouse_frame (heap : List DataFrame) (a : Nat) (tbl : String)
    (cache : SchemaCache) (client : Option ClientStub) (ha : a < heap.length) :
    (backendClickhouse heap a tbl cache client).heap.get? a = heap.get? a := by
  rw [backendClickhouse.eq_def]
  cases client with
  | none => rfl
  | some cl =>
    simp only
    cases List.lookup tbl cache with
    | some sch => exact chAfterCache_frame cl heap a tbl sch cache 0 ha
    | none =>
      simp only
      cases cl.describe tbl with
      | none => rfl
      | some sch => exact chAfterCache_frame cl heap a tbl sch ((tbl, sch) :: cache) 1 ha

/-- Witness for claim C10 at a concrete one-frame heap, schema and client. -/
theorem backendClickhouse_frame_witness :
    (backendClickhouse
        [⟨1, [("pid", [Value.int 3]), ("note", [Value.nan])]⟩] 0 "temperature"
        [("temperature", [("pid", "Int64"), ("note", "String")])]
        (some ⟨fun _ => none, fun _ _ => none⟩)).heap.get? 0
      = (some (⟨1, [("pid", [Value.int 3]), ("note", [Value.nan])]⟩ : DataFrame)) := by
  have h := backendClickhouse_frame
    [⟨1, [("pid", [Value.int 3]), ("note", [Value.nan])]⟩] 0 "temperature"
    [("temperature", [("pid", "Int64"), ("note", "String")])]
    (some ⟨fun _ => none, fun _ _ => none⟩) (by decide)
  rw [h]
  rfl

lemma chAfterCache_out (cl : ClientStub) (heap : List DataFrame) (a : Nat) (tbl : String)
    (sch : Schema) (cache1 : SchemaCache) (cnt : Nat) :
    (chAfterCache cl heap a tbl sch cache1 cnt).cache = cache1 ∧
    (chAfterCache cl heap a tbl sch cache1 cnt).describeCount = cnt := by
  rw [chAfterCache]
  cases hpc : chProcessCols sch tbl sch (heap ++ [heap.getD a dfEmpty]) heap.length with
  | mk hp2 res =>
    cases res with
    | none =>
      simp only
      cases cl.insertDf tbl (hp2.getD heap.length dfEmpty) <;> exact ⟨rfl, rfl⟩
    | some p => cases p with | mk st er => exact ⟨rfl, rfl⟩

lemma chStep_cached (heap : List DataFrame) (a : Nat) (t2 : String) (cache : SchemaCache)
    (client : Option ClientStub) (tbl : String) (sch : Schema)
    (hc : List.lookup tbl cache = some sch) :
    List.lookup tbl (backendClickhouse heap a t2 cache client).cache = some sch ∧
    (t2 = tbl → (backendClickhouse heap a t2 cache client).describeCount = 0) := by
  rw [backendClickhouse.eq_def]
  cases client with
  | none => exact ⟨hc, fun _ => rfl⟩
  | some cl =>
    simp only
    cases hl : List.lookup t2 cache with
    | some s =>
      obtain ⟨h1, h2⟩ := chAfterCache_out cl heap a t2 s cache 0
      exact ⟨by rw [h1]; exact hc, fun _ => h2⟩
    | none =>
      have hne : t2 ≠ tbl := by
        intro he
        rw [he, hc] at hl
        exact absurd hl (by simp)
      simp only
      cases hd : cl.describe t2 with
      | none => exact ⟨hc, fun he => absurd he hne⟩
      | some s =>
        obtain ⟨h1, h2⟩ := chAfterCache_out cl heap a t2 s ((t2, s) :: cache) 1
        refine ⟨?_, fun he => absurd he hne⟩
        rw [h1, List.lookup]
        have : (tbl == t2) = false := beq_false_of_ne (fun he => hne he.symm)
        rw [this]
        exact hc

/-- Claim C8, counterexample: when the first `DESCRIBE TABLE` query raises
(table absent), nothing is cached, so a second insert into the same table
within the same run issues a second metadata query — the query count for
that table is 2, not at most 1. -/
theorem schema_cache_cex :
    queriesFor (chRun (some ⟨fun _ => none, fun _ _ => none⟩)
        [(0, "temperature"), (0, "temperature")] [dfEmpty] []).1 "temperature" = 2 ∧
    ¬ (2 ≤ 1) := by
  exact ⟨by decide, by decide⟩

/-- Claim C8 (amended): once the cache holds an entry for a table — in
particular after the first successful metadata query, which stores the
schema (second conjunct) — every further insert into that table in the run
issues zero metadata queries and the cached entry survives the whole run
unchanged (never invalidated or refreshed).  While the query keeps failing,
however, each insert attempt reissues it (see the counterexample). -/
theorem schema_cache_amended :
    (∀ (client : Option ClientStub) (calls : List (Nat × String)) (heap : List DataFrame)
        (cache : SchemaCache) (tbl : String) (sch : Schema),
        List.lookup tbl cache = some sch →
        queriesFor (chRun client calls heap cache).1 tbl = 0 ∧
        List.lookup tbl (chRun client calls heap cache).2.2 = some sch) ∧
    (∀ (heap : List DataFrame) (a : Nat) (tbl : String) (cache : SchemaCache)
        (cl : ClientStub) (sch : Schema),
        List.lookup tbl cache = none → cl.describe tbl = some sch →
        (backendClickhouse heap a tbl cache (some cl)).describeCount = 1 ∧
        List.lookup tbl (backendClickhouse heap a tbl cache (some cl)).cache = some sch) := by
  constructor
  · intro client calls
    induction calls with
    | nil => intro heap cache tbl sch hc; exact ⟨rfl, hc⟩
    | cons call rest ih =>
      intro heap cache tbl sch hc
      obtain ⟨hstep1, hstep2⟩ :=
        chStep_cached heap call.1 call.2 cache client tbl sch hc
      obtain ⟨hr1, hr2⟩ :=
        ih (backendClickhouse heap call.1 call.2 cache client).heap
          (backendClickhouse heap call.1 call.2 cache client).cache tbl sch hstep1
      rw [chRun.eq_def]
      cases call with
      | mk a t2 =>
        simp only
        constructor
        · rw [queriesFor]
          by_cases he : (t2 == tbl) = true
          · rw [if_pos he, hstep2 (by exact beq_iff_eq.mp he)]
            simpa using hr1
          · rw [if_neg he]
            simpa using hr1
        · exact hr2
  · intro heap a tbl cache cl sch hmiss hdesc
    rw [backendClickhouse.eq_def]
    simp only [hmiss, hdesc]
    obtain ⟨h1, h2⟩ := chAfterCache_out cl heap a tbl sch ((tbl, sch) :: cache) 1
    refine ⟨h2, ?_⟩
    rw [h1, List.lookup, beq_self_eq_true]

/-- Witness for the amended claim C8: an already-cached table is inserted
into without any metadata query. -/
theorem schema_cache_amended_witness :
    queriesFor (chRun (some ⟨fun _ => some [("pid", "Int64")], fun _ _ => none⟩)
        [(0, "temperature")] [dfEmpty] [("temperature", [("pid", "Int64")])]).1
      "temperature" = 0 := by
  exact (schema_cache_amended.1 (some ⟨fun _ => some [("pid", "Int64")], fun _ _ => none⟩)
    [(0, "temperature")] [dfEmpty] [("temperature", [("pid", "Int64")])]
    "temperature" [("pid", "Int64")] (by decide)).1

/-! ## Ingestion pipeline (`Ingestor.ingestor`, Ingestor.py 118-196, the
modifier registry `MODIFIERS`, Ingestor.py 114-116, `_temp_modifier`,
Ingestor.py 73-94, and the controller update-mode loop, Controller.py
126-133 and 144-154)

File-system access (`os.listdir`, `pd.read_csv`) is external: the embedded
`ingestorWith` receives the directory as a list of `(filename, parsed CSV
frame)` pairs, the whitelist as a list (its file was loaded by
`createTableWhitelist`), the `ENVIRONMENT` production toggle as a Bool, and
the storage upload as an oracle `backend` returning the `(status, err)`
pair of the selected `_backend_*` call. -/

/-- `astype('int64')` on one cell: digit strings convert, anything
non-numeric raises. -/
def valueAstypeInt64 : Value → Option Value
  | .int z => some (.int z)
  | .str s => (pyInt s.toList).map Value.int
  | _ => none

/-- `pd.to_datetime(cell, utc=True)` (line 85): parseable values become
UTC-normalized timestamps, NaN becomes NaT, an unparseable string raises. -/
def pdToDatetimeUtcVal : Value → Option Value
  | .ts _ => some (.ts (some 0))
  | .str s => (pyFromIso s.toList).map (fun _ => Value.ts (some 0))
  | .int _ => some (.ts (some 0))
  | .nan => some .nan

/-- `_temp_modifier(df)` (Ingestor.py 73-94): drop the four sensitive
columns (`df.drop` raises `KeyError` when a label is absent), convert
`timestamp` to UTC datetime when its dtype is not already `datetime64[ns]`,
rename it to `timestamp_utc`.  When `pd.to_datetime` raises, evaluating the
handler clause `except (ParserError, ValueError)` raises `NameError`,
because `ParserError` is never imported in Ingestor.py — so the
`return None` on line 89 is unreachable. -/
def tempModifier (df : DataFrame) : PyResult (Option DataFrame) :=
  let labels := ["email", "group", "name", "participant_id"]
  if labels.all (fun c => (List.lookup c df.cols).isSome) then
    let df1 : DataFrame := ⟨df.nrows, df.cols.filter (fun p => !(labels.contains p.1))⟩
    match List.lookup "timestamp" df1.cols with
    | none => .exn .keyError
    | some vs =>
      if isDatetime64ns vs then .ok (some (renameCol df1 "timestamp" "timestamp_utc"))
      else
        match vs.mapM pdToDatetimeUtcVal with
        | none => .exn .nameError
        | some vs1 =>
          .ok (some (renameCol (setCol df1 "timestamp" vs1) "timestamp" "timestamp_utc"))
  else .exn .keyError

/-- The modifier registry of Ingestor.py lines 114-116.  It is empty in the
source: `_temp_modifier` and `_activity_modifier` are defined but never
registered, so no table has a modifier. -/
def MODIFIERS : List (String × (DataFrame → PyResult (Option DataFrame))) := []

/-- Per-file transform portion of the ingestor loop (Ingestor.py 165-175):
attach the `pid` column (string scalar, then `astype('int64')`), run the
registered modifier if any, then `removeSensitive`.  When a modifier
returns `None` the source only logs — there is no `continue` — so the
subsequent `removeSensitive(None)` accesses `None.columns` and raises
`AttributeError`.  `transformStageWith` takes the registry as a parameter;
the pipeline itself uses the module-level `MODIFIERS`. -/
def transformStageWith (modifiers : List (String × (DataFrame → PyResult (Option DataFrame))))
    (table_name : String) (df : DataFrame) (pid : String) : PyResult DataFrame :=
  let df1 := setColScalar df "pid" (.str pid)
  match ((List.lookup "pid" df1.cols).getD []).mapM valueAstypeInt64 with
  | none => .exn .valueError
  | some vs =>
    let df2 := setCol df1 "pid" vs
    match List.lookup table_name modifiers with
    | some m =>
      match m df2 with
      | .exn e => .exn e
      | .ok none => .exn .attributeError
      | .ok (some df3) => .ok (removeSensitive df3)
    | none => .ok (removeSensitive df2)

/-- The transform stage as the source runs it, with the (empty) module-level
registry. -/
def transformStage : String → DataFrame → String → PyResult DataFrame :=
  transformStageWith MODIFIERS

/-- The ingestor directory loop (Ingestor.py 140-196): route each filename,
apply the whitelist and specific-pid filters, transform, upload in
production mode, log failed uploads — and, on line 196, `return True`
unconditionally: per-file upload failures never reach the caller, only a
raised exception can.  The registry is a parameter here; `ingestor` below
fixes it to the module-level `MODIFIERS`. -/
def ingestorWith (modifiers : List (String × (DataFrame → PyResult (Option DataFrame))))
    (whitelist : List String) (specific_pid : Option String) (production : Bool)
    (backend : DataFrame → String → Bool × Option String) :
    List (String × DataFrame) → PyResult Bool
  | [] => .ok true
  | (fname, csv) :: rest =>
    match routeFilename fname with
    | none => ingestorWith modifiers whitelist specific_pid production backend rest
    | some (table_name, pid) =>
      if !(whitelist.contains table_name) then
        ingestorWith modifiers whitelist specific_pid production backend rest
      else if (match specific_pid with | some p => !(pid == p) | none => false) then
        ingestorWith modifiers whitelist specific_pid production backend rest
      else
        match transformStageWith modifiers table_name csv pid with
        | .exn e => .exn e
        | .ok df =>
          let r := if production then backend df table_name else (true, none)
          match r with
          | (_status, _err) =>
            ingestorWith modifiers whitelist specific_pid production backend rest

/-- `ingestor` as the source runs it. -/
def ingestor : List String → Option String → Bool →
    (DataFrame → String → Bool × Option String) → List (String × DataFrame) → PyResult Bool :=
  ingestorWith MODIFIERS

/-- The controller's update-mode per-PID loop (Controller.py 126-133): call
the ingestor once per new PID with `str(new_pid)` and add the PID to the
successful set when the result is truthy, to the failed set otherwise (the
sets are modelled as lists in PID order). -/
def controllerUpdateLoop (runPid : String → PyResult Bool) :
    List Nat → PyResult (List Nat × List Nat)
  | [] => .ok ([], [])
  | p :: rest =>
    match runPid (toString p) with
    | .exn e => .exn e
    | .ok b =>
      match controllerUpdateLoop runPid rest with
      | .exn e => .exn e
      | .ok (succ, failed) => .ok (if b then (p :: succ, failed) else (succ, p :: failed))

/-- A one-row temperature CSV as `pd.read_csv` would deliver it. -/
def tempCsv : DataFrame :=
  ⟨1, [("email", [.str "jane@example.org"]),
       ("group", [.str "study1"]),
       ("name", [.str "Jane Roe"]),
       ("participant_id", [.str "123-4567"]),
       ("timestamp", [.str "2024-01-01T00:00:00+00:00"])]⟩

/-- What the pipeline actually produces for `tempCsv` (see
`transform_temperature_bug`). -/
def tempActualOut : DataFrame :=
  ⟨1, [("email", [.str "foo@bar.org"]),
       ("group", [.str "g1"]),
       ("name", [.str "john doe"]),
       ("participant_id", [.str "000-0000"]),
       ("timestamp", [.str "2024-01-01T00:00:00+00:00"]),
       ("pid", [.int 7])]⟩

/-- Claim C1 (code bug): on a temperature batch with columns
{email, group, name, participant_id, timestamp}, the transform stage keeps
all five columns (overwriting the sensitive ones with placeholders) and
appends `pid` — the columns are not {timestamp_utc, pid} — because
`MODIFIERS` is empty, so `_temp_modifier` is never called.  The last
conjunct shows the registration is the only missing piece: with
`_temp_modifier` registered for `"temperature"`, the same stage yields
exactly the columns {timestamp_utc, pid} the spec describes. -/
theorem transform_temperature_bug :
    transformStage "temperature" tempCsv "7" = .ok tempActualOut ∧
    List.lookup "temperature" MODIFIERS = none ∧
    colNames tempActualOut = ["email", "group", "name", "participant_id", "timestamp", "pid"] ∧
    colNames tempActualOut ≠ ["timestamp_utc", "pid"] ∧
    transformStageWith [("temperature", tempModifier)] "temperature" tempCsv "7"
      = .ok ⟨1, [("timestamp_utc", [.ts (some 0)]), ("pid", [.int 7])]⟩ := by
  exact ⟨by decide, rfl, by decide, by decide, by decide⟩

/-- One-row CSV frame holding one timestamp cell. -/
def csvRow (t : String) : DataFrame := ⟨1, [("timestamp", [.str t])]⟩

/-- The three files of the partial-failure scenario, one per PID 1, 2, 3. -/
def c2files : List (String × DataFrame) :=
  [("temperature_1_oura_1.csv", csvRow "2024-01-01T00:00:00+00:00"),
   ("temperature_1_oura_2.csv", csvRow "2024-01-02T00:00:00+00:00"),
   ("temperature_1_oura_3.csv", csvRow "2024-01-03T00:00:00+00:00")]

/-- A backend stub whose upload fails exactly for the PID-2 batch. -/
def backendBoom : DataFrame → String → Bool × Option String := fun df _ =>
  if List.lookup "pid" df.cols = some [Value.int 2] then (false, some "upload failed")
  else (true, none)

/-- Claim C2 (code bug): in the three-file run in which exactly the PID-2
upload fails (second conjunct), the ingestor still returns true for PID 2's
invocation (first conjunct) because line 196 returns `True` regardless of
per-file status, so the controller's update-mode aggregation puts all of
1, 2, 3 into the successful set and leaves the failed set empty (third
conjunct) — the failed set does not contain the failed PID. -/
theorem ingestor_failed_pid_bug :
    ingestor ["temperature"] (some "2") true backendBoom c2files = .ok true ∧
    transformStage "temperature" (csvRow "2024-01-02T00:00:00+00:00") "2"
      = .ok ⟨1, [("timestamp", [.str "2024-01-02T00:00:00+00:00"]), ("pid", [.int 2])]⟩ ∧
    backendBoom ⟨1, [("timestamp", [.str "2024-01-02T00:00:00+00:00"]), ("pid", [.int 2])]⟩
      "temperature" = (false, some "upload failed") ∧
    controllerUpdateLoop
        (fun p => ingestor ["temperature"] (some p) true backendBoom c2files) [1, 2, 3]
      = .ok ([1, 2, 3], []) := by
  exact ⟨by decide, by decide, by decide, by decide⟩

/-- Claim C3 (code bug): when a registered modifier rejects a batch by
returning `None`, the transform stage raises `AttributeError`
(`removeSensitive(None)` evaluates `None.columns`; the source logs the
failure but lacks a `continue`), and the whole ingestor run aborts with
that exception — the second file of the run is never processed and no
`.ok` result is produced — instead of skipping the file and proceeding. -/
theorem modifier_rejection_bug :
    transformStageWith [("temperature", fun _ => .ok none)] "temperature"
        (csvRow "2024-01-01T00:00:00+00:00") "1" = .exn .attributeError ∧
    ingestorWith [("temperature", fun _ => .ok none)] ["temperature"] none true
        (fun _ _ => (true, none))
        [("temperature_1_oura_1.csv", csvRow "2024-01-01T00:00:00+00:00"),
         ("temperature_1_oura_2.csv", csvRow "2024-01-02T00:00:00+00:00")]
      = .exn .attributeError := by
  exact ⟨by decide, by decide⟩

end Oura
